import Mathlib

/-!
Shallow embedding of the voip-web Session & Room Presence Manager with
Signaling Relay (src/voip_web/server.py, handlers registered in
`register_socketio_handlers`, over the in-memory storage backend
`MemoryStorage` of src/voip_web/storage.py, with the configuration limits
of src/voip_web/config.py).

Modelling conventions:
* `MemoryStorage.users` (a Python dict `sid -> {'name': ..., 'room': ...}`)
  is modelled as a function `String → Option UserRec`; the handlers never
  iterate the users dict, so its insertion order is unobservable.
* `MemoryStorage.rooms` (a Python dict `room -> list of sids`) is modelled
  as `String → Option (List String)`; the member list keeps the Python
  list order, which is observable (peer resolution scans it in order).
  An absent key is `none`; `get_room` defaults an absent room to `[]`
  exactly as `self.rooms.get(room_name, [])` does.
* socketio `emit` calls are recorded as a list of `(Dest, OutEvent)`
  pairs: `Dest.sid s` is a unicast (the default `emit` to the requesting
  client, or `room=target_sid`), `Dest.room r` is a room broadcast
  (`room=r`), `Dest.roomExceptSender r s` is `room=r, include_self=False`.
* `datetime.now().strftime` is an environment input: the current clock
  string is a field of the inbound `text_message` event.
* Python string truthiness (`if room:`, `if target_sid:`) is modelled
  faithfully: a string is truthy iff it is non-empty.
* Event payload fields read with `data.get(key, default)` are `Option`
  valued; the handler applies the default, as the code does.
-/

namespace VoipWeb

/-- A user record as stored by `handle_join`: `{'name': username, 'room': room}`. -/
structure UserRec where
  name : String
  room : String
deriving DecidableEq

/-- The configuration values the socketio handlers read
(`limits.max_users_per_room`, `limits.max_message_length`,
`features.audio_calls`, `features.video_calls`). -/
structure Config where
  max_users_per_room : Nat
  max_message_length : Nat
  audio_calls : Bool
  video_calls : Bool
deriving DecidableEq

/-- The defaults of `Config.DEFAULT_CONFIG` in src/voip_web/config.py. -/
def defaultConfig : Config :=
  { max_users_per_room := 50
  , max_message_length := 1000
  , audio_calls := true
  , video_calls := true }

/-- The state of `MemoryStorage`: the `users` dict and the `rooms` dict. -/
structure ServerState where
  users : String → Option UserRec
  rooms : String → Option (List String)

/-- The empty storage (`_memory_users = {}`, `_memory_rooms = {}`). -/
def initState : ServerState := ⟨fun _ => none, fun _ => none⟩

/-- `MemoryStorage.get_user`: `self.users.get(sid)`. -/
def get_user (st : ServerState) (sid : String) : Option UserRec :=
  st.users sid

/-- `MemoryStorage.set_user`: `self.users[sid] = user_data`. -/
def set_user (st : ServerState) (sid : String) (u : UserRec) : ServerState :=
  { st with users := fun s => if s = sid then some u else st.users s }

/-- `MemoryStorage.delete_user`: `if sid in self.users: del self.users[sid]`. -/
def delete_user (st : ServerState) (sid : String) : ServerState :=
  { st with users := fun s => if s = sid then none else st.users s }

/-- `MemoryStorage.get_room`: `self.rooms.get(room_name, [])`. -/
def get_room (st : ServerState) (room : String) : List String :=
  (st.rooms room).getD []

/-- `MemoryStorage.add_user_to_room`: ensure the key exists, then append the
sid if it is not already a member. -/
def add_user_to_room (st : ServerState) (room : String) (sid : String) : ServerState :=
  let l := get_room st room
  { st with rooms := fun r => if r = room then some (if sid ∈ l then l else l ++ [sid]) else st.rooms r }

/-- `MemoryStorage.remove_user_from_room`: `if room_name in self.rooms and sid
in self.rooms[room_name]: self.rooms[room_name].remove(sid)`; Python
`list.remove` deletes the first occurrence, i.e. `List.erase`. -/
def remove_user_from_room (st : ServerState) (room : String) (sid : String) : ServerState :=
  match st.rooms room with
  | none => st
  | some l =>
      if sid ∈ l then
        { st with rooms := fun r => if r = room then some (l.erase sid) else st.rooms r }
      else st

/-- `MemoryStorage.delete_room`: `if room_name in self.rooms: del self.rooms[room_name]`. -/
def delete_room (st : ServerState) (room : String) : ServerState :=
  { st with rooms := fun r => if r = room then none else st.rooms r }

/-- Destination of a socketio `emit`. -/
inductive Dest where
  | sid (s : String)
  | room (r : String)
  | roomExceptSender (r : String) (sender : String)
deriving DecidableEq

/-- The outbound events the handlers emit, with their payload fields. -/
inductive OutEvent where
  | serverMessage (msg : String)
  | error (msg : String)
  | joinSuccess (username room : String)
  | userJoined (username : String) (users : List String)
  | userLeft (username : String) (users : List String)
  | userList (users : List String)
  | textMessage (username message timestamp : String)
  | incomingCall (caller callType : String)
  | callAccepted (answerer callType : String)
  | callRejected (answerer : String)
  | webrtcSignal (sender : String) (signal : Option String)
  | callEnded (username : String)
deriving DecidableEq

/-- Result of one handler invocation: the storage state afterwards and the
emitted events in order. -/
structure Step where
  state : ServerState
  emits : List (Dest × OutEvent)

/-- The list comprehension `[storage.get_user(s)['name'] for s in
storage.get_room(room) if storage.get_user(s)]`. -/
def roomUserNames (st : ServerState) (room : String) : List String :=
  (get_room st room).filterMap (fun s => (get_user st s).map UserRec.name)

/-- The peer-resolution loop shared by `handle_call`, `handle_call_answer`,
`handle_webrtc_signal` and `handle_hangup`: scan the room's member list in
order and stop at the first sid whose stored record exists and whose `name`
equals the requested value (`if u and u['name'] == target: ...; break`). -/
def resolvePeer (st : ServerState) (room : String) (target : Option String) : Option String :=
  (get_room st room).find? (fun s =>
    match get_user st s with
    | some u => target == some u.name
    | none => false)

/-- `handle_connect`: prints and emits `server_message` to the new client;
the storage state is untouched. -/
def handle_connect (st : ServerState) (sid : String) : Step :=
  ⟨st, [(Dest.sid sid, OutEvent.serverMessage "Connecté au serveur")]⟩

/-- `handle_disconnect`. Note the Python truthiness test `if room:` on the
stored room name: it is false for the empty string, in which case the room
cleanup is skipped entirely. -/
def handle_disconnect (st : ServerState) (sid : String) : Step :=
  match get_user st sid with
  | none => ⟨st, []⟩
  | some user =>
      let room := user.room
      if room ≠ "" then
        let room_users := get_room st room
        let st1 := if sid ∈ room_users then remove_user_from_room st room sid else st
        let remaining := roomUserNames st1 room
        let st2 := if get_room st1 room = [] then delete_room st1 room else st1
        ⟨delete_user st2 sid, [(Dest.room room, OutEvent.userLeft user.name remaining)]⟩
      else
        ⟨delete_user st sid, []⟩

/-- `handle_join`: defaults `username` to `'Anonymous'` and `room` to
`'lobby'`, rejects when the room already has at least
`max_users_per_room` members, otherwise records the user, adds the sid to
the room and emits `join_success`, `user_joined` (to the room excluding the
sender) and `user_list`. -/
def handle_join (cfg : Config) (st : ServerState) (sid : String)
    (username? room? : Option String) : Step :=
  let username := username?.getD "Anonymous"
  let room := room?.getD "lobby"
  if (get_room st room).length ≥ cfg.max_users_per_room then
    ⟨st, [(Dest.sid sid, OutEvent.error "Room pleine")]⟩
  else
    let st1 := set_user st sid ⟨username, room⟩
    let st2 := add_user_to_room st1 room sid
    let room_users := roomUserNames st2 room
    ⟨st2,
      [ (Dest.sid sid, OutEvent.joinSuccess username room)
      , (Dest.roomExceptSender room sid, OutEvent.userJoined username room_users)
      , (Dest.sid sid, OutEvent.userList room_users) ]⟩

/-- `handle_text_message`: drops silently when the sid has no stored user,
errors to the sender when the message exceeds `max_message_length`, else
broadcasts to the sender's room with the server clock string `now`. -/
def handle_text_message (cfg : Config) (st : ServerState) (sid : String)
    (message? : Option String) (now : String) : Step :=
  match get_user st sid with
  | none => ⟨st, []⟩
  | some user =>
      let message := message?.getD ""
      if message.length > cfg.max_message_length then
        ⟨st, [(Dest.sid sid, OutEvent.error "Message trop long")]⟩
      else
        ⟨st, [(Dest.room user.room, OutEvent.textMessage user.name message now)]⟩

/-- `handle_call`: feature-flag checks, then peer resolution; the final
`if target_sid:` is Python truthiness, so a resolved empty-string sid is
also dropped. -/
def handle_call (cfg : Config) (st : ServerState) (sid : String)
    (target? callType? : Option String) : Step :=
  match get_user st sid with
  | none => ⟨st, []⟩
  | some caller =>
      let callType := callType?.getD "audio"
      if callType = "audio" && !cfg.audio_calls then
        ⟨st, [(Dest.sid sid, OutEvent.error "Appels audio désactivés")]⟩
      else if callType = "video" && !cfg.video_calls then
        ⟨st, [(Dest.sid sid, OutEvent.error "Appels vidéo désactivés")]⟩
      else
        match resolvePeer st caller.room target? with
        | some t =>
            if t = "" then ⟨st, []⟩
            else ⟨st, [(Dest.sid t, OutEvent.incomingCall caller.name callType)]⟩
        | none => ⟨st, []⟩

/-- `handle_call_answer`: resolves the caller's sid by display name and
unicasts `call_accepted` or `call_rejected`. -/
def handle_call_answer (st : ServerState) (sid : String)
    (caller? : Option String) (accepted : Bool) (callType? : Option String) : Step :=
  match get_user st sid with
  | none => ⟨st, []⟩
  | some answerer =>
      let callType := callType?.getD "audio"
      match resolvePeer st answerer.room caller? with
      | some c =>
          if c = "" then ⟨st, []⟩
          else if accepted then
            ⟨st, [(Dest.sid c, OutEvent.callAccepted answerer.name callType)]⟩
          else
            ⟨st, [(Dest.sid c, OutEvent.callRejected answerer.name)]⟩
      | none => ⟨st, []⟩

/-- `handle_webrtc_signal`: resolves the target and unicasts the payload
`signal` unchanged, tagged with the sender's display name. -/
def handle_webrtc_signal (st : ServerState) (sid : String)
    (target? : Option String) (signal : Option String) : Step :=
  match get_user st sid with
  | none => ⟨st, []⟩
  | some sender =>
      match resolvePeer st sender.room target? with
      | some t =>
          if t = "" then ⟨st, []⟩
          else ⟨st, [(Dest.sid t, OutEvent.webrtcSignal sender.name signal)]⟩
      | none => ⟨st, []⟩

/-- `handle_hangup`: resolves the target and unicasts `call_ended`. -/
def handle_hangup (st : ServerState) (sid : String) (target? : Option String) : Step :=
  match get_user st sid with
  | none => ⟨st, []⟩
  | some user =>
      match resolvePeer st user.room target? with
      | some t =>
          if t = "" then ⟨st, []⟩
          else ⟨st, [(Dest.sid t, OutEvent.callEnded user.name)]⟩
      | none => ⟨st, []⟩

/-- The inbound events of the socketio interface. `now` on `textMessage` is
the server clock reading at handling time. -/
inductive Event where
  | connect (sid : String)
  | disconnect (sid : String)
  | join (sid : String) (username room : Option String)
  | textMessage (sid : String) (message : Option String) (now : String)
  | callUser (sid : String) (target callType : Option String)
  | callAnswer (sid : String) (caller : Option String) (accepted : Bool) (callType : Option String)
  | webrtcSignal (sid : String) (target signal : Option String)
  | hangup (sid : String) (target : Option String)
deriving DecidableEq

/-- Dispatch one inbound event to its handler. -/
def handleEvent (cfg : Config) (st : ServerState) : Event → Step
  | .connect sid => handle_connect st sid
  | .disconnect sid => handle_disconnect st sid
  | .join sid u r => handle_join cfg st sid u r
  | .textMessage sid m now => handle_text_message cfg st sid m now
  | .callUser sid t ct => handle_call cfg st sid t ct
  | .callAnswer sid c acc ct => handle_call_answer st sid c acc ct
  | .webrtcSignal sid t sg => handle_webrtc_signal st sid t sg
  | .hangup sid t => handle_hangup st sid t

/-- Run a list of events from a given state, keeping only the state. -/
def runFrom (cfg : Config) (st : ServerState) : List Event → ServerState
  | [] => st
  | e :: tr => runFrom cfg (handleEvent cfg st e).state tr

/-- Run a list of events from the empty storage. -/
def runTrace (cfg : Config) (tr : List Event) : ServerState :=
  runFrom cfg initState tr

/-- The sid of a `join` event, `none` for every other event. -/
def joinSid : Event → Option String
  | .join s _ _ => some s
  | _ => none

/-- Every connection id issues at most one `join` event in the trace. -/
def AtMostOneJoin (tr : List Event) : Prop :=
  (tr.filterMap joinSid).Nodup

instance (tr : List Event) : Decidable (AtMostOneJoin tr) :=
  List.nodupDecidable _

/-- Membership consistency, the property of spec §8: every registered
session's recorded room is exactly the set of rooms whose member list
contains its id. -/
def MembershipConsistent (st : ServerState) : Prop :=
  ∀ sid rec, get_user st sid = some rec → ∀ R, rec.room = R ↔ sid ∈ get_room st R

/-- Every sid occurring in any room's member list belongs to the list `J`
(used with `J` = the sids that have issued a join so far). -/
def MembersIn (st : ServerState) (J : List String) : Prop :=
  ∀ R sid, sid ∈ get_room st R → sid ∈ J

/-- Every room present in the registry has a non-empty member list. -/
def RoomsNonempty (st : ServerState) : Prop :=
  ∀ r l, st.rooms r = some l → l ≠ []

/-! ## Helper lemmas about the storage operations -/

theorem get_user_set_user (st : ServerState) (sid : String) (u : UserRec) (s : String) :
    get_user (set_user st sid u) s = if s = sid then some u else get_user st s := rfl

theorem get_user_delete_user (st : ServerState) (sid s : String) :
    get_user (delete_user st sid) s = if s = sid then none else get_user st s := rfl

theorem get_room_set_user (st : ServerState) (sid : String) (u : UserRec) (r : String) :
    get_room (set_user st sid u) r = get_room st r := rfl

theorem get_user_add_user_to_room (st : ServerState) (room sid s : String) :
    get_user (add_user_to_room st room sid) s = get_user st s := rfl

theorem get_room_add_user_to_room (st : ServerState) (room sid r : String) :
    get_room (add_user_to_room st room sid) r =
      if r = room then
        (if sid ∈ get_room st room then get_room st room else get_room st room ++ [sid])
      else get_room st r := by
  unfold add_user_to_room get_room
  by_cases h : r = room <;> simp [h]

theorem get_room_delete_user (st : ServerState) (sid r : String) :
    get_room (delete_user st sid) r = get_room st r := rfl

theorem get_user_remove_user_from_room (st : ServerState) (room sid s : String) :
    get_user (remove_user_from_room st room sid) s = get_user st s := by
  unfold remove_user_from_room
  cases st.rooms room
  · rfl
  · dsimp only; split <;> rfl

theorem get_user_delete_room (st : ServerState) (room s : String) :
    get_user (delete_room st room) s = get_user st s := rfl

theorem get_room_delete_room (st : ServerState) (room r : String) :
    get_room (delete_room st room) r = if r = room then [] else get_room st r := by
  unfold delete_room get_room
  by_cases h : r = room <;> simp [h]

theorem get_room_remove_user_from_room (st : ServerState) (room sid r : String)
    (l : List String) (hl : st.rooms room = some l) (hm : sid ∈ l) :
    get_room (remove_user_from_room st room sid) r =
      if r = room then l.erase sid else get_room st r := by
  unfold remove_user_from_room
  rw [hl]
  dsimp only
  rw [if_pos hm]
  unfold get_room
  by_cases h : r = room <;> simp [h]

theorem handle_connect_state (st : ServerState) (sid : String) :
    (handle_connect st sid).state = st := rfl

theorem handle_text_message_state (cfg : Config) (st : ServerState) (sid : String)
    (m : Option String) (now : String) :
    (handle_text_message cfg st sid m now).state = st := by
  unfold handle_text_message
  cases get_user st sid
  · rfl
  · dsimp only; split <;> rfl

theorem handle_call_state (cfg : Config) (st : ServerState) (sid : String)
    (t ct : Option String) :
    (handle_call cfg st sid t ct).state = st := by
  unfold handle_call
  cases get_user st sid
  · rfl
  · dsimp only
    split
    · rfl
    · split
      · rfl
      · split
        · split <;> rfl
        · rfl

theorem handle_call_answer_state (st : ServerState) (sid : String)
    (c : Option String) (acc : Bool) (ct : Option String) :
    (handle_call_answer st sid c acc ct).state = st := by
  unfold handle_call_answer
  cases get_user st sid
  · rfl
  · dsimp only
    split
    · split
      · rfl
      · split <;> rfl
    · rfl

theorem handle_webrtc_signal_state (st : ServerState) (sid : String)
    (t sg : Option String) :
    (handle_webrtc_signal st sid t sg).state = st := by
  unfold handle_webrtc_signal
  cases get_user st sid
  · rfl
  · dsimp only
    split
    · split <;> rfl
    · rfl

theorem handle_hangup_state (st : ServerState) (sid : String) (t : Option String) :
    (handle_hangup st sid t).state = st := by
  unfold handle_hangup
  cases get_user st sid
  · rfl
  · dsimp only
    split
    · split <;> rfl
    · rfl

/-! ## Preservation of the room-existence invariant -/

theorem handle_join_roomsNonempty (cfg : Config) (st : ServerState) (sid : String)
    (u? r? : Option String) (h : RoomsNonempty st) :
    RoomsNonempty (handle_join cfg st sid u? r?).state := by
  unfold handle_join
  dsimp only
  split
  · exact h
  · intro r l hl
    simp only [add_user_to_room, set_user, get_room] at hl
    by_cases hr : r = r?.getD "lobby"
    · rw [if_pos hr] at hl
      injection hl with hl
      subst hl
      split
      · rename_i hmem
        exact List.ne_nil_of_mem hmem
      · simp
    · rw [if_neg hr] at hl
      exact h r l hl

theorem handle_disconnect_roomsNonempty (st : ServerState) (sid : String)
    (h : RoomsNonempty st) : RoomsNonempty (handle_disconnect st sid).state := by
  unfold handle_disconnect
  cases hu : get_user st sid with
  | none => exact h
  | some user =>
    dsimp only
    split
    · -- the user's recorded room name is non-empty: full cleanup path
      intro r l hl
      simp only [delete_user] at hl
      by_cases hm : sid ∈ get_room st user.room
      · rw [if_pos hm] at hl
        obtain ⟨l0, hl0⟩ : ∃ l0, st.rooms user.room = some l0 := by
          cases hr0 : st.rooms user.room with
          | none => rw [get_room, hr0] at hm; simp at hm
          | some l0 => exact ⟨l0, rfl⟩
        have hm0 : sid ∈ l0 := by rw [get_room, hl0] at hm; exact hm
        rw [get_room_remove_user_from_room st user.room sid user.room l0 hl0 hm0,
          if_pos rfl] at hl
        simp only [remove_user_from_room, hl0, if_pos hm0] at hl
        by_cases he : l0.erase sid = []
        · rw [if_pos he] at hl
          simp only [delete_room] at hl
          by_cases hr : r = user.room
          · rw [if_pos hr] at hl; exact absurd hl (by simp)
          · rw [if_neg hr, if_neg hr] at hl
            exact h r l hl
        · rw [if_neg he] at hl
          dsimp only at hl
          by_cases hr : r = user.room
          · rw [if_pos hr] at hl
            injection hl with hl
            subst hl
            exact he
          · rw [if_neg hr] at hl
            exact h r l hl
      · rw [if_neg hm] at hl
        by_cases he : get_room st user.room = []
        · rw [if_pos he] at hl
          simp only [delete_room] at hl
          by_cases hr : r = user.room
          · rw [if_pos hr] at hl; exact absurd hl (by simp)
          · rw [if_neg hr] at hl
            exact h r l hl
        · rw [if_neg he] at hl
          exact h r l hl
    · -- empty room name: only the user record is deleted
      exact fun r l hl => h r l hl

theorem runFrom_roomsNonempty (cfg : Config) (tr : List Event) (st : ServerState)
    (h : RoomsNonempty st) : RoomsNonempty (runFrom cfg st tr) := by
  induction tr generalizing st with
  | nil => exact h
  | cons e tr ih =>
    refine ih _ ?_
    cases e with
    | connect sid => exact h
    | disconnect sid => exact handle_disconnect_roomsNonempty st sid h
    | join sid u r => exact handle_join_roomsNonempty cfg st sid u r h
    | textMessage sid m now =>
        show RoomsNonempty (handle_text_message cfg st sid m now).state
        rw [handle_text_message_state]; exact h
    | callUser sid t ct =>
        show RoomsNonempty (handle_call cfg st sid t ct).state
        rw [handle_call_state]; exact h
    | callAnswer sid c acc ct =>
        show RoomsNonempty (handle_call_answer st sid c acc ct).state
        rw [handle_call_answer_state]; exact h
    | webrtcSignal sid t sg =>
        show RoomsNonempty (handle_webrtc_signal st sid t sg).state
        rw [handle_webrtc_signal_state]; exact h
    | hangup sid t =>
        show RoomsNonempty (handle_hangup st sid t).state
        rw [handle_hangup_state]; exact h

/-! ## Preservation of membership consistency -/

theorem handle_join_memInv (cfg : Config) (st : ServerState) (sid : String)
    (u? r? : Option String) (J : List String)
    (h1 : MembershipConsistent st) (h2 : MembersIn st J) (hs : sid ∉ J) :
    MembershipConsistent (handle_join cfg st sid u? r?).state ∧
    MembersIn (handle_join cfg st sid u? r?).state (sid :: J) := by
  have hnot : ∀ R, sid ∉ get_room st R := fun R hm => hs (h2 R sid hm)
  unfold handle_join
  dsimp only
  split
  · exact ⟨h1, fun R s hm => List.mem_cons_of_mem _ (h2 R s hm)⟩
  · have hrooms : ∀ R,
        get_room (add_user_to_room
          (set_user st sid ⟨u?.getD "Anonymous", r?.getD "lobby"⟩) (r?.getD "lobby") sid) R =
          if R = r?.getD "lobby" then get_room st (r?.getD "lobby") ++ [sid]
          else get_room st R := by
      intro R
      rw [get_room_add_user_to_room]
      simp only [get_room_set_user]
      rw [if_neg (hnot (r?.getD "lobby"))]
    constructor
    · intro s rec hrec R
      rw [get_user_add_user_to_room, get_user_set_user] at hrec
      rw [hrooms R]
      by_cases hsids : s = sid
      · subst hsids
        rw [if_pos rfl] at hrec
        injection hrec with hrec
        subst hrec
        by_cases hR : R = r?.getD "lobby"
        · subst hR
          simp
        · rw [if_neg hR]
          exact iff_of_false (fun h => hR h.symm) (hnot R)
      · rw [if_neg hsids] at hrec
        by_cases hR : R = r?.getD "lobby"
        · subst hR
          rw [if_pos rfl, List.mem_append, List.mem_singleton, or_iff_left hsids]
          exact h1 s rec hrec (r?.getD "lobby")
        · rw [if_neg hR]
          exact h1 s rec hrec R
    · intro R s hm
      rw [hrooms R] at hm
      by_cases hR : R = r?.getD "lobby"
      · rw [if_pos hR, List.mem_append, List.mem_singleton] at hm
        rcases hm with hm | rfl
        · exact List.mem_cons_of_mem _ (h2 _ s hm)
        · exact List.mem_cons_self _ _
      · rw [if_neg hR] at hm
        exact List.mem_cons_of_mem _ (h2 R s hm)

theorem handle_disconnect_memInv (st : ServerState) (sid : String) (J : List String)
    (h1 : MembershipConsistent st) (h2 : MembersIn st J) :
    MembershipConsistent (handle_disconnect st sid).state ∧
    MembersIn (handle_disconnect st sid).state J := by
  unfold handle_disconnect
  cases hu : get_user st sid with
  | none => exact ⟨h1, h2⟩
  | some user =>
    dsimp only
    split
    · -- non-empty room name: remove from room, maybe delete room, delete user
      have hmem : sid ∈ get_room st user.room := (h1 sid user hu user.room).1 rfl
      rw [if_pos hmem]
      obtain ⟨l0, hl0⟩ : ∃ l0, st.rooms user.room = some l0 := by
        cases hr0 : st.rooms user.room with
        | none => rw [get_room, hr0] at hmem; simp at hmem
        | some l0 => exact ⟨l0, rfl⟩
      have hm0 : sid ∈ l0 := by rw [get_room, hl0, Option.getD_some] at hmem; exact hmem
      have hl0room : get_room st user.room = l0 := by rw [get_room, hl0, Option.getD_some]
      have hrem : ∀ R, get_room (remove_user_from_room st user.room sid) R =
          if R = user.room then l0.erase sid else get_room st R :=
        fun R => get_room_remove_user_from_room st user.room sid R l0 hl0 hm0
      have hst2 : ∀ R,
          get_room (if get_room (remove_user_from_room st user.room sid) user.room = []
            then delete_room (remove_user_from_room st user.room sid) user.room
            else remove_user_from_room st user.room sid) R =
          if R = user.room then l0.erase sid else get_room st R := by
        intro R
        split
        · rename_i hemp
          rw [hrem user.room, if_pos rfl] at hemp
          rw [get_room_delete_room]
          by_cases hR : R = user.room
          · rw [if_pos hR, if_pos hR, hemp]
          · rw [if_neg hR, if_neg hR, hrem R, if_neg hR]
        · exact hrem R
      have hu2 : ∀ s,
          get_user (if get_room (remove_user_from_room st user.room sid) user.room = []
            then delete_room (remove_user_from_room st user.room sid) user.room
            else remove_user_from_room st user.room sid) s = get_user st s := by
        intro s
        split
        · rw [get_user_delete_room, get_user_remove_user_from_room]
        · rw [get_user_remove_user_from_room]
      constructor
      · intro s rec hrec R
        rw [get_user_delete_user, hu2 s] at hrec
        by_cases hsids : s = sid
        · rw [if_pos hsids] at hrec; exact absurd hrec (by simp)
        · rw [if_neg hsids] at hrec
          rw [get_room_delete_user, hst2 R]
          by_cases hR : R = user.room
          · subst hR
            rw [if_pos rfl, List.mem_erase_of_ne hsids, ← hl0room]
            exact h1 s rec hrec user.room
          · rw [if_neg hR]
            exact h1 s rec hrec R
      · intro R s hm
        rw [get_room_delete_user, hst2 R] at hm
        by_cases hR : R = user.room
        · rw [if_pos hR] at hm
          exact h2 user.room s (by rw [hl0room]; exact List.erase_subset _ _ hm)
        · rw [if_neg hR] at hm
          exact h2 R s hm
    · -- empty room name: only the user record is deleted
      constructor
      · intro s rec hrec R
        rw [get_user_delete_user] at hrec
        by_cases hsids : s = sid
        · rw [if_pos hsids] at hrec; exact absurd hrec (by simp)
        · rw [if_neg hsids] at hrec
          exact h1 s rec hrec R
      · intro R s hm
        exact h2 R s hm

theorem runFrom_memInv (cfg : Config) (tr : List Event) (st : ServerState) (J : List String)
    (h1 : MembershipConsistent st) (h2 : MembersIn st J)
    (hnd : (tr.filterMap joinSid).Nodup)
    (hdisj : ∀ s ∈ tr.filterMap joinSid, s ∉ J) :
    MembershipConsistent (runFrom cfg st tr) := by
  induction tr generalizing st J with
  | nil => exact h1
  | cons e tr ih =>
    cases e with
    | join sid u r =>
      have hcons : ((Event.join sid u r) :: tr).filterMap joinSid =
          sid :: tr.filterMap joinSid := by simp [joinSid]
      rw [hcons] at hnd hdisj
      have hsid : sid ∉ J := hdisj sid (List.mem_cons_self _ _)
      have hstep := handle_join_memInv cfg st sid u r J h1 h2 hsid
      refine ih _ (sid :: J) hstep.1 hstep.2 (List.Nodup.of_cons hnd) ?_
      intro s hs
      simp only [List.mem_cons, not_or]
      constructor
      · rintro rfl
        exact (List.nodup_cons.1 hnd).1 hs
      · exact hdisj s (List.mem_cons_of_mem _ hs)
    | disconnect sid =>
      have hstep := handle_disconnect_memInv st sid J h1 h2
      exact ih _ J hstep.1 hstep.2 (by simpa [joinSid] using hnd)
        (fun s hs => hdisj s (by simpa [joinSid] using hs))
    | connect sid =>
      exact ih _ J h1 h2 (by simpa [joinSid] using hnd)
        (fun s hs => hdisj s (by simpa [joinSid] using hs))
    | textMessage sid m now =>
      show MembershipConsistent (runFrom cfg (handle_text_message cfg st sid m now).state tr)
      rw [handle_text_message_state]
      exact ih st J h1 h2 (by simpa [joinSid] using hnd)
        (fun s hs => hdisj s (by simpa [joinSid] using hs))
    | callUser sid t ct =>
      show MembershipConsistent (runFrom cfg (handle_call cfg st sid t ct).state tr)
      rw [handle_call_state]
      exact ih st J h1 h2 (by simpa [joinSid] using hnd)
        (fun s hs => hdisj s (by simpa [joinSid] using hs))
    | callAnswer sid c acc ct =>
      show MembershipConsistent (runFrom cfg (handle_call_answer st sid c acc ct).state tr)
      rw [handle_call_answer_state]
      exact ih st J h1 h2 (by simpa [joinSid] using hnd)
        (fun s hs => hdisj s (by simpa [joinSid] using hs))
    | webrtcSignal sid t sg =>
      show MembershipConsistent (runFrom cfg (handle_webrtc_signal st sid t sg).state tr)
      rw [handle_webrtc_signal_state]
      exact ih st J h1 h2 (by simpa [joinSid] using hnd)
        (fun s hs => hdisj s (by simpa [joinSid] using hs))
    | hangup sid t =>
      show MembershipConsistent (runFrom cfg (handle_hangup st sid t).state tr)
      rw [handle_hangup_state]
      exact ih st J h1 h2 (by simpa [joinSid] using hnd)
        (fun s hs => hdisj s (by simpa [joinSid] using hs))

/-! ## Claim theorems -/

/-- C1 counterexample: a second `join` by the same connection id moves the
session record to the new room but never removes the id from the old
room's member list, so after `join(a, r1); join(a, r2)` session `a` has
room `r2` recorded while `a` is still a member of `r1` — membership
consistency fails after this sequence of handled events. -/
theorem C1_counterexample :
    ¬ MembershipConsistent (runTrace defaultConfig
      [Event.join "a" (some "u") (some "r1"), Event.join "a" (some "u") (some "r2")]) := by
  intro h
  have hr := (h "a" ⟨"u", "r2"⟩ (by decide) "r1").2 (by decide)
  exact absurd hr (by decide)

/-- C1 (amended): membership consistency holds after any sequence of
handled events in which each connection id issues at most one `join` event:
for every registered session s and every room R, s records room R if and
only if s's id is a member of R, in both directions. -/
theorem C1_membership_consistency (cfg : Config) (tr : List Event)
    (h : AtMostOneJoin tr) : MembershipConsistent (runTrace cfg tr) := by
  refine runFrom_memInv cfg tr initState [] ?_ ?_ h ?_
  · intro s rec hrec R
    exact absurd hrec (by simp [get_user, initState])
  · intro R s hm
    exact absurd hm (by simp [get_room, initState])
  · intro s hs
    simp

/-- C1 witness: a concrete two-user trace with one join per connection
satisfies the amended invariant. -/
theorem C1_membership_consistency_witness :
    AtMostOneJoin [Event.connect "a", Event.join "a" (some "Alice") (some "lobby"),
      Event.connect "b", Event.join "b" (some "Bob") (some "lobby")] ∧
    MembershipConsistent (runTrace defaultConfig
      [Event.connect "a", Event.join "a" (some "Alice") (some "lobby"),
       Event.connect "b", Event.join "b" (some "Bob") (some "lobby")]) :=
  ⟨by decide, C1_membership_consistency defaultConfig _ (by decide)⟩

/-- C2 counterexample: a session joins the room named by the empty string
and then disconnects. Its session record is gone (it was the room's last
member and it disconnected), yet the room is still present in the registry,
still holding the dead sid: the disconnect handler's Python truthiness test
`if room:` skips the cleanup for the empty room name, so the claim's
"deleted implicitly when its last member disconnects" fails here. -/
theorem C2_counterexample :
    (runTrace defaultConfig
        [Event.join "a" (some "u") (some ""), Event.disconnect "a"]).rooms "" = some ["a"] ∧
    get_user (runTrace defaultConfig
        [Event.join "a" (some "u") (some ""), Event.disconnect "a"]) "a" = none := by
  decide

/-- C2 (amended): after any sequence of handled events a room name is
present in the registry iff its member list is non-empty (first conjunct);
a room absent from the registry is created by a join into it, holding
exactly the joiner (second conjunct); and when the last member of a room
with a NON-EMPTY name disconnects, the room is removed from the registry
(third conjunct) — for the room named by the empty string the disconnect
handler skips cleanup, so only the existence biconditional survives there. -/
theorem C2_room_existence :
    (∀ (cfg : Config) (tr : List Event) (r : String),
      (runTrace cfg tr).rooms r ≠ none ↔ get_room (runTrace cfg tr) r ≠ []) ∧
    (∀ (cfg : Config) (st : ServerState) (sid : String) (u? r? : Option String),
      0 < cfg.max_users_per_room → st.rooms (r?.getD "lobby") = none →
      (handle_join cfg st sid u? r?).state.rooms (r?.getD "lobby") = some [sid]) ∧
    (∀ (st : ServerState) (sid : String) (rec : UserRec),
      get_user st sid = some rec → rec.room ≠ "" → get_room st rec.room = [sid] →
      (handle_disconnect st sid).state.rooms rec.room = none) := by
  refine ⟨?_, ?_, ?_⟩
  · intro cfg tr r
    have h := runFrom_roomsNonempty cfg tr initState (fun r l hl => nomatch hl)
    constructor
    · intro hne
      cases hrm : (runTrace cfg tr).rooms r with
      | none => exact absurd hrm hne
      | some l =>
          have hl := h r l hrm
          simp only [get_room, hrm, Option.getD_some]
          exact hl
    · intro hne hnone
      rw [get_room, hnone] at hne
      exact hne rfl
  · intro cfg st sid u? r? hpos hnone
    unfold handle_join
    dsimp only
    have hlt : ¬ (get_room st (r?.getD "lobby")).length ≥ cfg.max_users_per_room := by
      rw [get_room, hnone]
      simp only [Option.getD_none, List.length_nil]
      omega
    rw [if_neg hlt]
    simp [add_user_to_room, set_user, get_room, hnone]
  · intro st sid rec hu hne hmem
    unfold handle_disconnect
    rw [hu]
    dsimp only
    rw [if_pos hne]
    have hsid : sid ∈ get_room st rec.room := by
      rw [hmem]; exact List.mem_singleton_self sid
    rw [if_pos hsid]
    have hrm : st.rooms rec.room = some [sid] := by
      cases hr : st.rooms rec.room with
      | none => rw [get_room, hr] at hmem; simp at hmem
      | some l => rw [get_room, hr, Option.getD_some] at hmem; rw [hmem]
    have h1 : get_room (remove_user_from_room st rec.room sid) rec.room = [] := by
      rw [get_room_remove_user_from_room st rec.room sid rec.room [sid] hrm
        (List.mem_singleton_self sid), if_pos rfl]
      simp
    rw [if_pos h1]
    simp [delete_user, delete_room]

/-- C2 witness: creation on first join into an absent room, and deletion on
disconnect of the last member of a room with a non-empty name. -/
theorem C2_room_existence_witness :
    ((runTrace defaultConfig [Event.join "a" (some "u") (some "r")]).rooms "r" ≠ none ↔
      get_room (runTrace defaultConfig [Event.join "a" (some "u") (some "r")]) "r" ≠ []) ∧
    (0 < defaultConfig.max_users_per_room ∧ initState.rooms "lobby" = none ∧
      (handle_join defaultConfig initState "a" none none).state.rooms "lobby" = some ["a"]) ∧
    (get_user (runTrace defaultConfig [Event.join "a" (some "u") (some "r")]) "a" =
        some ⟨"u", "r"⟩ ∧
      (UserRec.mk "u" "r").room ≠ "" ∧
      get_room (runTrace defaultConfig [Event.join "a" (some "u") (some "r")]) "r" = ["a"] ∧
      (handle_disconnect (runTrace defaultConfig [Event.join "a" (some "u") (some "r")])
          "a").state.rooms "r" = none) :=
  ⟨C2_room_existence.1 defaultConfig [Event.join "a" (some "u") (some "r")] "r",
   ⟨by decide, rfl,
    C2_room_existence.2.1 defaultConfig initState "a" none none (by decide) rfl⟩,
   ⟨by decide, by decide, by decide,
    C2_room_existence.2.2 (runTrace defaultConfig [Event.join "a" (some "u") (some "r")])
      "a" ⟨"u", "r"⟩ (by decide) (by decide) (by decide)⟩⟩

/-- C3: the claim is the spec's disconnect contract, and the code breaks it
on one input class: a session whose recorded room is the empty string. The
trace joins sid `a` into room `""` and disconnects it; afterwards the
session registry returns absent (first conjunct, the claim's first half
holds) but `a` is still a member of room `""` (second conjunct), because
`handle_disconnect` guards the cleanup with Python truthiness `if room:`,
which is false for the empty string. -/
theorem C3_disconnect_empty_room_leak :
    get_user (runTrace defaultConfig
        [Event.join "a" (some "u") (some ""), Event.disconnect "a"]) "a" = none ∧
    "a" ∈ get_room (runTrace defaultConfig
        [Event.join "a" (some "u") (some ""), Event.disconnect "a"]) "" := by
  decide

/-- C4 counterexample: the claim says a session record with an empty room is
created at connection time, but after a fresh connection's `connect` event
(and before any join) the session lookup returns `none`: `handle_connect`
never writes to the storage, so no record of any kind exists. -/
theorem C4_counterexample :
    get_user (runTrace defaultConfig [Event.connect "a"]) "a" = none := rfl

/-- C4 (amended): the `connect` handler creates no session record and leaves
the storage untouched; in particular a connection id that is absent from the
session registry is still absent after its `connect` event, until a `join`
first creates its record. -/
theorem C4_connect_creates_no_session (cfg : Config) (st : ServerState) (sid : String) :
    (handleEvent cfg st (.connect sid)).state = st ∧
    (get_user st sid = none → get_user (handleEvent cfg st (.connect sid)).state sid = none) :=
  ⟨rfl, fun h => h⟩

/-- C4 witness: instantiating the amended theorem on the empty storage. -/
theorem C4_connect_creates_no_session_witness :
    get_user initState "a" = none ∧
    get_user (handleEvent defaultConfig initState (.connect "a")).state "a" = none :=
  ⟨rfl, (C4_connect_creates_no_session defaultConfig initState "a").2 rfl⟩

/-- C5: a `join` into a room whose member count equals
`max_users_per_room` emits exactly one `error` event to the sender and
returns the storage state unchanged. -/
theorem C5_join_full_room (cfg : Config) (st : ServerState) (sid : String)
    (u? r? : Option String)
    (h : (get_room st (r?.getD "lobby")).length = cfg.max_users_per_room) :
    handleEvent cfg st (.join sid u? r?) =
      ⟨st, [(Dest.sid sid, OutEvent.error "Room pleine")]⟩ := by
  have hge : (get_room st (r?.getD "lobby")).length ≥ cfg.max_users_per_room := h.ge
  simp only [handleEvent, handle_join, if_pos hge]

/-- C5 witness: a room of capacity 1 holding one member rejects a second
join and the state is unchanged. -/
theorem C5_join_full_room_witness :
    (get_room (runTrace ⟨1, 1000, true, true⟩ [Event.join "x" (some "X") (some "r")])
        ((some "r").getD "lobby")).length = (1 : Nat) ∧
    handleEvent ⟨1, 1000, true, true⟩
        (runTrace ⟨1, 1000, true, true⟩ [Event.join "x" (some "X") (some "r")])
        (.join "b" (some "B") (some "r")) =
      ⟨runTrace ⟨1, 1000, true, true⟩ [Event.join "x" (some "X") (some "r")],
        [(Dest.sid "b", OutEvent.error "Room pleine")]⟩ :=
  ⟨by decide, C5_join_full_room ⟨1, 1000, true, true⟩ _ "b" (some "B") (some "r") (by decide)⟩

/-- C6: for a joined session, a text message of length exactly
`max_message_length` is broadcast to the sender's room carrying the display
name and the server clock string, while one of length
`max_message_length + 1` produces exactly one `error` event to the sender
and no broadcast; the storage state is unchanged in both cases. -/
theorem C6_text_message_boundary (cfg : Config) (st : ServerState) (sid : String)
    (rec : UserRec) (msg1 msg2 now : String)
    (hu : get_user st sid = some rec)
    (h1 : msg1.length = cfg.max_message_length)
    (h2 : msg2.length = cfg.max_message_length + 1) :
    handleEvent cfg st (.textMessage sid (some msg1) now) =
      ⟨st, [(Dest.room rec.room, OutEvent.textMessage rec.name msg1 now)]⟩ ∧
    handleEvent cfg st (.textMessage sid (some msg2) now) =
      ⟨st, [(Dest.sid sid, OutEvent.error "Message trop long")]⟩ := by
  have hno : ¬ msg1.length > cfg.max_message_length := by omega
  have hyes : msg2.length > cfg.max_message_length := by omega
  constructor
  · simp only [handleEvent, handle_text_message, hu, Option.getD_some, if_neg hno]
  · simp only [handleEvent, handle_text_message, hu, Option.getD_some, if_pos hyes]

/-- C6 witness: with `max_message_length = 2`, the two-character message is
broadcast and the three-character one is rejected. -/
theorem C6_text_message_boundary_witness :
    get_user (runTrace ⟨50, 2, true, true⟩ [Event.join "a" (some "Alice") (some "r")]) "a" =
      some ⟨"Alice", "r"⟩ ∧
    handleEvent ⟨50, 2, true, true⟩
        (runTrace ⟨50, 2, true, true⟩ [Event.join "a" (some "Alice") (some "r")])
        (.textMessage "a" (some "hi") "10:00") =
      ⟨runTrace ⟨50, 2, true, true⟩ [Event.join "a" (some "Alice") (some "r")],
        [(Dest.room "r", OutEvent.textMessage "Alice" "hi" "10:00")]⟩ ∧
    handleEvent ⟨50, 2, true, true⟩
        (runTrace ⟨50, 2, true, true⟩ [Event.join "a" (some "Alice") (some "r")])
        (.textMessage "a" (some "hey") "10:00") =
      ⟨runTrace ⟨50, 2, true, true⟩ [Event.join "a" (some "Alice") (some "r")],
        [(Dest.sid "a", OutEvent.error "Message trop long")]⟩ :=
  ⟨by decide,
   (C6_text_message_boundary ⟨50, 2, true, true⟩ _ "a" ⟨"Alice", "r"⟩ "hi" "hey" "10:00"
      (by decide) (by decide) (by decide)).1,
   (C6_text_message_boundary ⟨50, 2, true, true⟩ _ "a" ⟨"Alice", "r"⟩ "hi" "hey" "10:00"
      (by decide) (by decide) (by decide)).2⟩

/-- C9: a `join` with a missing `username` field behaves exactly like one
with `username = 'Anonymous'`, and one with a missing `room` field exactly
like one with `room = 'lobby'`: the handler result (state and emissions) is
identical. -/
theorem C9_join_defaults (cfg : Config) (st : ServerState) (sid : String) :
    (∀ r? : Option String,
      handleEvent cfg st (.join sid none r?) =
        handleEvent cfg st (.join sid (some "Anonymous") r?)) ∧
    (∀ u? : Option String,
      handleEvent cfg st (.join sid u? none) =
        handleEvent cfg st (.join sid u? (some "lobby"))) := by
  constructor
  · intro r?; rfl
  · intro u?
    cases u? <;> rfl

/-- C7 helper: the Boolean predicate scanned by `resolvePeer` holds of a
sid exactly when that sid has a stored record whose display name is the
requested target (a case-sensitive exact string comparison). -/
theorem matchesName_iff (st : ServerState) (tgt : Option String) (x : String) :
    ((match get_user st x with
      | some u => tgt == some u.name
      | none => false) = true) ↔ ∃ u, get_user st x = some u ∧ tgt = some u.name := by
  cases h : get_user st x <;> simp [h]

/-- C7: peer resolution returns a sid exactly when that sid is the FIRST
element of the room's member list (in list order) whose stored display name
equals the requested target, by case-sensitive exact match (first
conjunct); and when no member matches, each of `call_user` (with its call
type's feature enabled), `call_answer`, `webrtc_signal` and `hangup` leaves
the state unchanged and emits nothing to anyone (remaining conjuncts). -/
theorem C7_peer_resolution :
    (∀ (st : ServerState) (room : String) (tgt : Option String) (s : String),
      resolvePeer st room tgt = some s ↔
        (∃ u, get_user st s = some u ∧ tgt = some u.name) ∧
        ∃ l1 l2, get_room st room = l1 ++ s :: l2 ∧
          ∀ x ∈ l1, ¬ ∃ u, get_user st x = some u ∧ tgt = some u.name) ∧
    (∀ (cfg : Config) (st : ServerState) (sid : String) (rec : UserRec) (t ct : Option String),
      get_user st sid = some rec →
      (ct.getD "audio" = "audio" → cfg.audio_calls = true) →
      (ct.getD "audio" = "video" → cfg.video_calls = true) →
      resolvePeer st rec.room t = none →
      handleEvent cfg st (.callUser sid t ct) = ⟨st, []⟩) ∧
    (∀ (cfg : Config) (st : ServerState) (sid : String) (rec : UserRec)
        (c : Option String) (acc : Bool) (ct : Option String),
      get_user st sid = some rec →
      resolvePeer st rec.room c = none →
      handleEvent cfg st (.callAnswer sid c acc ct) = ⟨st, []⟩) ∧
    (∀ (cfg : Config) (st : ServerState) (sid : String) (rec : UserRec) (t sg : Option String),
      get_user st sid = some rec →
      resolvePeer st rec.room t = none →
      handleEvent cfg st (.webrtcSignal sid t sg) = ⟨st, []⟩) ∧
    (∀ (cfg : Config) (st : ServerState) (sid : String) (rec : UserRec) (t : Option String),
      get_user st sid = some rec →
      resolvePeer st rec.room t = none →
      handleEvent cfg st (.hangup sid t) = ⟨st, []⟩) := by
  refine ⟨?_, ?_, ?_, ?_, ?_⟩
  · intro st room tgt s
    unfold resolvePeer
    rw [List.find?_eq_some]
    simp only [matchesName_iff, Bool.not_eq_true', Bool.eq_false_iff, Ne,
      exists_and_left]
  · intro cfg st sid rec t ct hu hA hV hres
    have hc1 : (decide (ct.getD "audio" = "audio") && !cfg.audio_calls) = false := by
      by_cases hx : ct.getD "audio" = "audio"
      · simp [hx, hA hx]
      · simp [hx]
    have hc2 : (decide (ct.getD "audio" = "video") && !cfg.video_calls) = false := by
      by_cases hx : ct.getD "audio" = "video"
      · simp [hx, hV hx]
      · simp [hx]
    simp only [handleEvent, handle_call, hu, hc1, hc2, hres, Bool.false_eq_true, if_false]
  · intro cfg st sid rec c acc ct hu hres
    simp only [handleEvent, handle_call_answer, hu, hres]
  · intro cfg st sid rec t sg hu hres
    simp only [handleEvent, handle_webrtc_signal, hu, hres]
  · intro cfg st sid rec t hu hres
    simp only [handleEvent, handle_hangup, hu, hres]

/-- C7 witness: in a room holding Alice then Bob then a second Alice, the
target `Alice` resolves to the first Alice in list order, and a
`call_user` for the absent `Carol` is a complete no-op. -/
theorem C7_peer_resolution_witness :
    (resolvePeer (runTrace defaultConfig
        [Event.join "a" (some "Alice") (some "r"), Event.join "b" (some "Bob") (some "r"),
         Event.join "c" (some "Alice") (some "r")]) "r" (some "Alice") = some "a" ↔
      (∃ u, get_user (runTrace defaultConfig
          [Event.join "a" (some "Alice") (some "r"), Event.join "b" (some "Bob") (some "r"),
           Event.join "c" (some "Alice") (some "r")]) "a" = some u ∧
        (some "Alice" : Option String) = some u.name) ∧
      ∃ l1 l2, get_room (runTrace defaultConfig
          [Event.join "a" (some "Alice") (some "r"), Event.join "b" (some "Bob") (some "r"),
           Event.join "c" (some "Alice") (some "r")]) "r" = l1 ++ "a" :: l2 ∧
        ∀ x ∈ l1, ¬ ∃ u, get_user (runTrace defaultConfig
            [Event.join "a" (some "Alice") (some "r"), Event.join "b" (some "Bob") (some "r"),
             Event.join "c" (some "Alice") (some "r")]) x = some u ∧
          (some "Alice" : Option String) = some u.name) ∧
    (get_user (runTrace defaultConfig
        [Event.join "a" (some "Alice") (some "r")]) "a" = some ⟨"Alice", "r"⟩ ∧
      resolvePeer (runTrace defaultConfig
        [Event.join "a" (some "Alice") (some "r")]) (UserRec.mk "Alice" "r").room
        (some "Carol") = none ∧
      handleEvent defaultConfig
        (runTrace defaultConfig [Event.join "a" (some "Alice") (some "r")])
        (.callUser "a" (some "Carol") none) =
      ⟨runTrace defaultConfig [Event.join "a" (some "Alice") (some "r")], []⟩) :=
  ⟨C7_peer_resolution.1 _ "r" (some "Alice") "a",
   by decide, by decide,
   C7_peer_resolution.2.1 defaultConfig _ "a" ⟨"Alice", "r"⟩ (some "Carol") none
     (by decide) (fun _ => rfl) (fun h => by simp at h) (by decide)⟩

/-- C8: a `webrtc_signal` from a joined session whose target resolves (to a
member of the sender's room, with a non-empty sid as the transport
guarantees) is relayed as a single unicast to exactly that member, carrying
the sender's display name and the received payload value unchanged; the
storage state is untouched. -/
theorem C8_signal_relayed_unchanged (cfg : Config) (st : ServerState) (sid : String)
    (rec : UserRec) (t? sg : Option String) (tsid : String)
    (hu : get_user st sid = some rec)
    (hres : resolvePeer st rec.room t? = some tsid)
    (hne : tsid ≠ "") :
    handleEvent cfg st (.webrtcSignal sid t? sg) =
      ⟨st, [(Dest.sid tsid, OutEvent.webrtcSignal rec.name sg)]⟩ ∧
    tsid ∈ get_room st rec.room := by
  constructor
  · simp only [handleEvent, handle_webrtc_signal, hu, hres, if_neg hne]
  · exact List.mem_of_find?_eq_some hres

/-- C8 witness: Alice signals Bob; the payload string arrives at Bob's sid
byte-for-byte. -/
theorem C8_signal_relayed_unchanged_witness :
    get_user (runTrace defaultConfig
      [Event.join "a" (some "Alice") (some "r"), Event.join "b" (some "Bob") (some "r")])
      "a" = some ⟨"Alice", "r"⟩ ∧
    resolvePeer (runTrace defaultConfig
      [Event.join "a" (some "Alice") (some "r"), Event.join "b" (some "Bob") (some "r")])
      (UserRec.mk "Alice" "r").room (some "Bob") = some "b" ∧
    ("b" : String) ≠ "" ∧
    handleEvent defaultConfig
      (runTrace defaultConfig
        [Event.join "a" (some "Alice") (some "r"), Event.join "b" (some "Bob") (some "r")])
      (.webrtcSignal "a" (some "Bob") (some "sdp-offer-blob")) =
    ⟨runTrace defaultConfig
        [Event.join "a" (some "Alice") (some "r"), Event.join "b" (some "Bob") (some "r")],
      [(Dest.sid "b", OutEvent.webrtcSignal "Alice" (some "sdp-offer-blob"))]⟩ :=
  ⟨by decide, by decide, by decide,
   (C8_signal_relayed_unchanged defaultConfig _ "a" ⟨"Alice", "r"⟩ (some "Bob")
     (some "sdp-offer-blob") "b" (by decide) (by decide) (by decide)).1⟩

/-- C10: each of the five events that require a joined session, received
from a connection id with no stored session record, leaves the storage
unchanged and emits nothing to anyone. -/
theorem C10_unregistered_noop (cfg : Config) (st : ServerState) (sid : String)
    (m : Option String) (now : String) (t ct c sg : Option String) (acc : Bool)
    (h : get_user st sid = none) :
    handleEvent cfg st (.textMessage sid m now) = ⟨st, []⟩ ∧
    handleEvent cfg st (.callUser sid t ct) = ⟨st, []⟩ ∧
    handleEvent cfg st (.callAnswer sid c acc ct) = ⟨st, []⟩ ∧
    handleEvent cfg st (.webrtcSignal sid t sg) = ⟨st, []⟩ ∧
    handleEvent cfg st (.hangup sid t) = ⟨st, []⟩ := by
  refine ⟨?_, ?_, ?_, ?_, ?_⟩ <;>
    simp only [handleEvent, handle_text_message, handle_call, handle_call_answer,
      handle_webrtc_signal, handle_hangup, h]

/-- C10 witness: on the empty storage a `hangup` (and the other four
events) from an unknown sid is a complete no-op. -/
theorem C10_unregistered_noop_witness :
    get_user initState "x" = none ∧
    handleEvent defaultConfig initState (.hangup "x" (some "Bob")) = ⟨initState, []⟩ :=
  ⟨rfl,
   (C10_unregistered_noop defaultConfig initState "x" none "10:00" (some "Bob") none none none
      false rfl).2.2.2.2⟩

end VoipWeb
